import Mathlib

/-!
Verification development for the website-check scanner (server side).

The definitions below are a shallow embedding of the TypeScript sources:
* `src/server/src/scorer.ts` — categories, severities, issues, `calculateScore`;
* `src/server/src/crawler.ts` — `crawlSite`, a bounded breadth-first crawl;
* `src/server/src/scanner.ts` — `runScan`, the per-page audit pipeline.

JavaScript numbers are modelled exactly: integer state as `Int`/`Nat`,
fractional weights and metric values as `ℚ`, `Math.round` as half-up
rounding and `Math.floor` on non-negative integer quotients as `Nat`
division.  Browser behaviour (navigation results, DOM facts, emitted
events, viewport measurements) is abstracted into explicit environment
records consumed by the embedded control flow.
-/

namespace WebsiteCheck

/-- The six issue categories of `scorer.ts` (`Issue.category`). -/
inductive Category where
  | performance
  | responsiveness
  | accessibility
  | seo
  | errorsReliability
  | bestPractices
deriving DecidableEq, Repr

/-- The four severities of `scorer.ts` (`Issue.severity`). -/
inductive Severity where
  | critical
  | major
  | minor
  | suggestion
deriving DecidableEq, Repr

/-- `Issue` record from `scorer.ts`. -/
structure Issue where
  category : Category
  severity : Severity
  title : String
  description : String
  affectedUrl : String
deriving DecidableEq, Repr

/-- Metric snapshot captured by the injected observers in `scanner.ts`
(`window.__metrics` plus the navigation-timing duration; `duration` may be
`undefined`, hence `Option`). -/
structure Metrics where
  lcp : ℚ
  fcp : ℚ
  cls : ℚ
  duration : Option ℚ
deriving DecidableEq, Repr

/-- `PageReport` from `scorer.ts` (the object pushed onto `pageReports`
in `runScan`). -/
structure PageReport where
  url : String
  score : Int
  metrics : Option Metrics
  categoryScores : Category → Int
  issues : List Issue

/-- `ScoreReport` from `scorer.ts`. -/
structure ScoreReport where
  overallScore : Int
  categories : Category → Int
  details : List Issue
  pages : List PageReport

/-- `PENALTY` table of `calculateScore`: points deducted per severity. -/
def PENALTY : Severity → Nat
  | .critical => 25
  | .major => 15
  | .minor => 5
  | .suggestion => 1

/-- One `issues.forEach` step of `calculateScore`:
`scores[issue.category] = Math.max(0, scores[issue.category] - PENALTY[issue.severity])`. -/
def applyIssue (scores : Category → Int) (i : Issue) : Category → Int :=
  fun c => if c = i.category then max 0 (scores c - (PENALTY i.severity : Int)) else scores c

/-- The per-category scores after the `forEach` loop of `calculateScore`
(every category starts at 100). -/
def catScores (issues : List Issue) : Category → Int :=
  issues.foldl applyIssue (fun _ => 100)

/-- `Math.round`, which rounds half-values up. -/
def jsRound (q : ℚ) : Int := ⌊q + 1 / 2⌋

/-- The `totalWeighted` accumulation of `calculateScore`, with the `WEIGHTS`
table (.25/.20/.15/.15/.15/.10) inlined in source order. -/
def weightedTotal (g : Category → Int) : ℚ :=
  (g .performance : ℚ) * (25 / 100)
    + (g .responsiveness : ℚ) * (20 / 100)
    + (g .accessibility : ℚ) * (15 / 100)
    + (g .seo : ℚ) * (15 / 100)
    + (g .errorsReliability : ℚ) * (15 / 100)
    + (g .bestPractices : ℚ) * (10 / 100)

/-- `calculateScore(issues, pages = [])` from `scorer.ts`. -/
def calculateScore (issues : List Issue) (pages : List PageReport := []) : ScoreReport :=
  let scores := catScores issues
  { overallScore := jsRound (weightedTotal scores)
    categories := scores
    details := issues
    pages := pages }

/-- Penalty an issue contributes to category `c` (0 if it belongs elsewhere). -/
def penaltyTowards (c : Category) (i : Issue) : Nat :=
  if i.category = c then PENALTY i.severity else 0

/-- Total penalty accumulated against category `c` by a list of issues. -/
def penSum (c : Category) (issues : List Issue) : Nat :=
  (issues.map (penaltyTowards c)).sum

lemma max_zero_sub_absorb (x : Int) (s : Int) (hs : 0 ≤ s) :
    max 0 (max 0 x - s) = max 0 (x - s) := by
  rcases le_total x 0 with h | h
  · have h1 : max 0 x = 0 := max_eq_left h
    rw [h1]
    have : x - s ≤ 0 := by omega
    rw [max_eq_left (by omega), max_eq_left this]
  · rw [max_eq_right h]

/-- The running `forEach` fold computes a clamped subtraction of the total
category penalty, for any non-negative starting score. -/
lemma foldl_applyIssue (issues : List Issue) :
    ∀ (f : Category → Int) (c : Category), 0 ≤ f c →
      issues.foldl applyIssue f c = max 0 (f c - (penSum c issues : Int)) := by
  induction issues with
  | nil =>
    intro f c hf
    simp [penSum, max_eq_right hf]
  | cons i rest ih =>
    intro f c hf
    have hstep : 0 ≤ applyIssue f i c := by
      unfold applyIssue
      split
      · exact le_max_left _ _
      · exact hf
    rw [List.foldl_cons, ih (applyIssue f i) c hstep]
    unfold applyIssue penSum penaltyTowards
    by_cases h : c = i.category
    · subst h
      simp only [eq_self_iff_true, if_true, List.map_cons, List.sum_cons]
      rw [max_zero_sub_absorb _ _ (by positivity)]
      congr 1
      push_cast
      ring
    · have h' : ¬ i.category = c := fun hh => h hh.symm
      simp only [if_neg h, if_neg h', List.map_cons, List.sum_cons]
      norm_num [penSum, penaltyTowards]

/-- Closed form for the category scores of `calculateScore`. -/
lemma catScores_eq (issues : List Issue) (c : Category) :
    catScores issues c = max 0 (100 - (penSum c issues : Int)) :=
  foldl_applyIssue issues (fun _ => 100) c (by norm_num)

/-- `penSum` only depends on the multiset of issues. -/
lemma penSum_perm {xs ys : List Issue} (h : xs.Perm ys) (c : Category) :
    penSum c xs = penSum c ys :=
  (h.map (penaltyTowards c)).sum_eq

/-- The category-score table only depends on the multiset of issues. -/
lemma catScores_perm {xs ys : List Issue} (h : xs.Perm ys) :
    catScores xs = catScores ys := by
  funext c
  rw [catScores_eq, catScores_eq, penSum_perm h]

/-- **C3.**  The scoring function is order-independent: permuting the issue
list leaves every per-category score and the overall score unchanged. -/
theorem calculateScore_perm_invariant (xs ys : List Issue) (pages : List PageReport)
    (h : xs.Perm ys) :
    (∀ c, (calculateScore xs pages).categories c = (calculateScore ys pages).categories c)
      ∧ (calculateScore xs pages).overallScore = (calculateScore ys pages).overallScore := by
  have hcat : catScores xs = catScores ys := catScores_perm h
  constructor
  · intro c
    simp [calculateScore, hcat]
  · simp [calculateScore, hcat]

/-- Witness for C3 at a concrete two-element permutation. -/
theorem calculateScore_perm_invariant_witness :
    let i1 : Issue := ⟨.seo, .minor, "Missing Title", "", "http://a/"⟩
    let i2 : Issue := ⟨.performance, .critical, "Slow", "", "http://a/"⟩
    (∀ c, (calculateScore [i1, i2] []).categories c = (calculateScore [i2, i1] []).categories c)
      ∧ (calculateScore [i1, i2] []).overallScore = (calculateScore [i2, i1] []).overallScore := by
  intro i1 i2
  exact calculateScore_perm_invariant [i1, i2] [i2, i1] [] (List.Perm.swap i2 i1 [])

/-- **C4.**  Every category score returned by `calculateScore` lies in
`[0, 100]`, for every issue list. -/
theorem calculateScore_categories_bounded (issues : List Issue) (pages : List PageReport)
    (c : Category) :
    0 ≤ (calculateScore issues pages).categories c
      ∧ (calculateScore issues pages).categories c ≤ 100 := by
  have h : (calculateScore issues pages).categories c = max 0 (100 - (penSum c issues : Int)) := by
    simp [calculateScore, catScores_eq]
  rw [h]
  refine ⟨le_max_left _ _, ?_⟩
  have : (100 : Int) - (penSum c issues : Int) ≤ 100 := by
    have : (0 : Int) ≤ (penSum c issues : Int) := Int.natCast_nonneg _
    omega
  exact max_le (by norm_num) this

/-- **C5.**  Concrete scoring scenarios: a single SEO/Minor issue yields
SEO = 95, all other categories 100 and overall 99; the empty issue list
yields 100 everywhere. -/
theorem calculateScore_scenarios (t d u : String) :
    (calculateScore [⟨.seo, .minor, t, d, u⟩] []).categories .seo = 95
      ∧ (calculateScore [⟨.seo, .minor, t, d, u⟩] []).categories .performance = 100
      ∧ (calculateScore [⟨.seo, .minor, t, d, u⟩] []).categories .responsiveness = 100
      ∧ (calculateScore [⟨.seo, .minor, t, d, u⟩] []).categories .accessibility = 100
      ∧ (calculateScore [⟨.seo, .minor, t, d, u⟩] []).categories .errorsReliability = 100
      ∧ (calculateScore [⟨.seo, .minor, t, d, u⟩] []).categories .bestPractices = 100
      ∧ (calculateScore [⟨.seo, .minor, t, d, u⟩] []).overallScore = 99
      ∧ (∀ c, (calculateScore [] []).categories c = 100)
      ∧ (calculateScore [] []).overallScore = 100 := by
  refine ⟨?_, ?_, ?_, ?_, ?_, ?_, ?_, ?_, ?_⟩
  · rfl
  · rfl
  · rfl
  · rfl
  · rfl
  · rfl
  · show jsRound (weightedTotal (catScores [⟨.seo, .minor, t, d, u⟩])) = 99
    have h : weightedTotal (catScores [⟨.seo, .minor, t, d, u⟩]) = 397 / 4 := by
      unfold weightedTotal
      rw [show catScores [⟨.seo, .minor, t, d, u⟩] .performance = 100 from rfl]
      rw [show catScores [⟨.seo, .minor, t, d, u⟩] .responsiveness = 100 from rfl]
      rw [show catScores [⟨.seo, .minor, t, d, u⟩] .accessibility = 100 from rfl]
      rw [show catScores [⟨.seo, .minor, t, d, u⟩] .seo = 95 from rfl]
      rw [show catScores [⟨.seo, .minor, t, d, u⟩] .errorsReliability = 100 from rfl]
      rw [show catScores [⟨.seo, .minor, t, d, u⟩] .bestPractices = 100 from rfl]
      norm_num
    rw [h]
    norm_num [jsRound]
  · intro c
    cases c <;> rfl
  · show jsRound (weightedTotal (catScores [])) = 100
    have h : weightedTotal (catScores []) = 100 := by
      norm_num [weightedTotal, catScores]
    rw [h]
    norm_num [jsRound]

/-!
## Crawler (`crawler.ts`)

`crawlSite` drives a headless browser; we abstract the browser into a `Web`
environment: `hostname` is the URL parser (`new URL(u).hostname`, `none`
when parsing throws) and `fetch` is one navigation (`none` when `page.goto`
fails or times out, otherwise the absolutized `href` attributes of the
page's anchors, as collected by the in-page `$$eval`).
-/

/-- The crawler's external world. -/
structure Web where
  hostname : String → Option String
  fetch : String → Option (List String)

/-- One pending queue entry of `crawlSite`. -/
structure QItem where
  url : String
  depth : Nat
  referrer : Option String

/-- `link.split('#')[0]`: the prefix of a URL before its first `#`. -/
def stripFragment (s : String) : String :=
  ⟨s.data.takeWhile (fun c => c ≠ '#')⟩

/-- `href.startsWith('http')`, expressed on the underlying character list. -/
def jsStartsWith (s pre : String) : Bool :=
  pre.data.isPrefixOf s.data

/-- `visited.has(u)` on the insertion-ordered visited map. -/
def visitedHas (visited : List (String × Option String)) (u : String) : Bool :=
  visited.any (fun e => e.1 == u)

/-- The `for (const link of links)` body: keep http(s) links on the seed's
domain that are not yet visited, strip their fragment, and re-check the
stripped spelling against the visited map before enqueueing at depth+1. -/
def extractLinks (w : Web) (domain url : String) (depth : Nat)
    (visited : List (String × Option String)) (hrefs : List String) : List QItem :=
  (hrefs.filter (fun h => jsStartsWith h "http")).filterMap (fun link =>
    match w.hostname link with
    | none => none
    | some h =>
      if h = domain ∧ visitedHas visited link = false then
        let cleanLink := stripFragment link
        if visitedHas visited cleanLink = false then
          some ⟨cleanLink, depth + 1, some url⟩
        else none
      else none)

/-- Links enqueued after navigating `item` (empty on navigation failure or
when the fetched page already sits at the maximum depth). -/
def newItemsFor (w : Web) (domain : String) (maxDepth : Nat) (item : QItem)
    (visited' : List (String × Option String)) : List QItem :=
  match w.fetch item.url with
  | none => []
  | some hrefs =>
    if item.depth < maxDepth then
      extractLinks w domain item.url item.depth visited' hrefs
    else []

/-- The `while (queue.length > 0 && visited.size < maxPages)` loop of
`crawlSite`.  The dequeued URL is tested against the visited map verbatim;
a fresh URL is recorded (with its referrer) before navigation, and link
extraction only happens on navigation success below the depth bound. -/
def crawlLoop (w : Web) (domain : String) (maxDepth maxPages : Nat)
    (visited : List (String × Option String)) (queue : List QItem) :
    List (String × Option String) :=
  match queue with
  | [] => visited
  | item :: rest =>
    if _hv : visited.length < maxPages then
      if visitedHas visited item.url then
        crawlLoop w domain maxDepth maxPages visited rest
      else if maxDepth < item.depth then
        crawlLoop w domain maxDepth maxPages visited rest
      else
        let visited' := visited ++ [(item.url, item.referrer)]
        crawlLoop w domain maxDepth maxPages visited'
          (rest ++ newItemsFor w domain maxDepth item visited')
    else visited
termination_by (maxPages - visited.length, queue.length)
decreasing_by
  · exact Prod.Lex.right _ (by simp)
  · exact Prod.Lex.right _ (by simp)
  · exact Prod.Lex.left _ _ (by simp; omega)

/-- `crawlSite(startUrl, maxDepth = 3, maxPages = 20)`: `none` models the
thrown exception when the seed URL does not parse. -/
def crawlSite (w : Web) (startUrl : String) (maxDepth : Nat := 3) (maxPages : Nat := 20) :
    Option (List (String × Option String)) :=
  match w.hostname startUrl with
  | none => none
  | some domain => some (crawlLoop w domain maxDepth maxPages [] [⟨startUrl, 0, none⟩])

lemma visitedHas_true_iff (v : List (String × Option String)) (u : String) :
    visitedHas v u = true ↔ u ∈ v.map Prod.fst := by
  unfold visitedHas
  rw [List.any_eq_true]
  constructor
  · rintro ⟨e, he, hbeq⟩
    have he1 : e.1 = u := by simpa using hbeq
    exact he1 ▸ List.mem_map_of_mem Prod.fst he
  · intro hu
    obtain ⟨e, he, heq⟩ := List.mem_map.mp hu
    exact ⟨e, he, by simp [heq]⟩

lemma visitedHas_false_iff (v : List (String × Option String)) (u : String) :
    visitedHas v u = false ↔ u ∉ v.map Prod.fst := by
  rw [← visitedHas_true_iff]
  exact ⟨fun h => by simp [h], fun h => by simpa using h⟩

section CrawlUnfold

variable {w : Web} {domain : String} {maxDepth maxPages : Nat}
variable {visited : List (String × Option String)} {item : QItem} {rest : List QItem}

lemma crawlLoop_nil : crawlLoop w domain maxDepth maxPages visited [] = visited := by
  rw [crawlLoop]

lemma newItemsFor_none (hf : w.fetch item.url = none) :
    ∀ v', newItemsFor w domain maxDepth item v' = [] := by
  intro v'
  unfold newItemsFor
  rw [hf]

lemma newItemsFor_some {hrefs : List String} (hf : w.fetch item.url = some hrefs) :
    ∀ v', newItemsFor w domain maxDepth item v'
      = if item.depth < maxDepth then extractLinks w domain item.url item.depth v' hrefs
        else [] := by
  intro v'
  unfold newItemsFor
  rw [hf]

lemma crawlLoop_stop (h : ¬ visited.length < maxPages) :
    crawlLoop w domain maxDepth maxPages visited (item :: rest) = visited := by
  rw [crawlLoop]
  simp [h]

lemma crawlLoop_skip (h1 : visited.length < maxPages)
    (h2 : visitedHas visited item.url = true) :
    crawlLoop w domain maxDepth maxPages visited (item :: rest)
      = crawlLoop w domain maxDepth maxPages visited rest := by
  conv_lhs => rw [crawlLoop]
  simp [h1, h2]

lemma crawlLoop_deep (h1 : visited.length < maxPages)
    (h2 : visitedHas visited item.url = false) (h3 : maxDepth < item.depth) :
    crawlLoop w domain maxDepth maxPages visited (item :: rest)
      = crawlLoop w domain maxDepth maxPages visited rest := by
  conv_lhs => rw [crawlLoop]
  simp [h1, h2, h3]

lemma crawlLoop_insert (h1 : visited.length < maxPages)
    (h2 : visitedHas visited item.url = false) (h3 : ¬ maxDepth < item.depth) :
    crawlLoop w domain maxDepth maxPages visited (item :: rest)
      = crawlLoop w domain maxDepth maxPages (visited ++ [(item.url, item.referrer)])
          (rest ++ newItemsFor w domain maxDepth item (visited ++ [(item.url, item.referrer)])) := by
  conv_lhs => rw [crawlLoop]
  simp [h1, h2, h3]

end CrawlUnfold

/-- The crawl loop only ever extends the visited map at the end. -/
lemma crawlLoop_prefix (w : Web) (domain : String) (maxDepth maxPages : Nat)
    (visited : List (String × Option String)) (queue : List QItem) :
    visited <+: crawlLoop w domain maxDepth maxPages visited queue := by
  induction visited, queue using crawlLoop.induct w domain maxDepth maxPages with
  | case1 v => rw [crawlLoop_nil]
  | case2 v item rest h1 h2 ih => rw [crawlLoop_skip h1 h2]; exact ih
  | case3 v item rest h1 h2 h3 ih =>
    rw [crawlLoop_deep h1 (by simpa using h2) h3]; exact ih
  | case4 v item rest h1 h2 h3 visited' ih =>
    rw [crawlLoop_insert h1 (by simpa using h2) h3]
    exact (List.prefix_append v [(item.url, item.referrer)]).trans ih
  | case5 v item rest h1 => rw [crawlLoop_stop h1]

/-- The visited map never exceeds `maxPages` entries (unless it already did). -/
lemma crawlLoop_length_le (w : Web) (domain : String) (maxDepth maxPages : Nat)
    (visited : List (String × Option String)) (queue : List QItem) :
    (crawlLoop w domain maxDepth maxPages visited queue).length
      ≤ max visited.length maxPages := by
  induction visited, queue using crawlLoop.induct w domain maxDepth maxPages with
  | case1 v => rw [crawlLoop_nil]; exact le_max_left _ _
  | case2 v item rest h1 h2 ih => rw [crawlLoop_skip h1 h2]; exact ih
  | case3 v item rest h1 h2 h3 ih =>
    rw [crawlLoop_deep h1 (by simpa using h2) h3]; exact ih
  | case4 v item rest h1 h2 h3 visited' ih =>
    rw [crawlLoop_insert h1 (by simpa using h2) h3]
    refine ih.trans ?_
    have hlen : visited'.length = v.length + 1 := by
      rw [show visited' = v ++ [(item.url, item.referrer)] from rfl]
      simp
    rw [hlen]
    omega
  | case5 v item rest h1 => rw [crawlLoop_stop h1]; exact le_max_left _ _

/-- Exact-URL keys of the visited map stay duplicate-free. -/
lemma crawlLoop_nodup (w : Web) (domain : String) (maxDepth maxPages : Nat)
    (visited : List (String × Option String)) (queue : List QItem)
    (hv : (visited.map Prod.fst).Nodup) :
    ((crawlLoop w domain maxDepth maxPages visited queue).map Prod.fst).Nodup := by
  induction visited, queue using crawlLoop.induct w domain maxDepth maxPages with
  | case1 v => rw [crawlLoop_nil]; exact hv
  | case2 v item rest h1 h2 ih => rw [crawlLoop_skip h1 h2]; exact ih hv
  | case3 v item rest h1 h2 h3 ih =>
    rw [crawlLoop_deep h1 (by simpa using h2) h3]; exact ih hv
  | case4 v item rest h1 h2 h3 visited' ih =>
    rw [crawlLoop_insert h1 (by simpa using h2) h3]
    refine ih ?_
    have hnotmem : item.url ∉ v.map Prod.fst :=
      (visitedHas_false_iff v item.url).mp (by simpa using h2)
    rw [show visited' = v ++ [(item.url, item.referrer)] from rfl, List.map_append]
    simp only [List.map_cons, List.map_nil]
    rw [List.nodup_append]
    refine ⟨hv, List.nodup_singleton _, ?_⟩
    intro a ha hb
    have ha1 : a = item.url := by simpa using hb
    exact hnotmem (ha1 ▸ ha)
  | case5 v item rest h1 => rw [crawlLoop_stop h1]; exact hv

lemma takeWhile_self_idem (p : Char → Bool) (l : List Char) :
    (l.takeWhile p).takeWhile p = l.takeWhile p := by
  induction l with
  | nil => simp
  | cons a l ih =>
    by_cases h : p a <;> simp [List.takeWhile_cons, h, ih]

/-- Fragment stripping is idempotent. -/
lemma stripFragment_idem (s : String) :
    stripFragment (stripFragment s) = stripFragment s := by
  unfold stripFragment
  exact congrArg String.mk (takeWhile_self_idem _ s.data)

/-- Every link the crawler enqueues carries a fragment-stripped URL. -/
lemma newItemsFor_url (w : Web) (domain : String) (maxDepth : Nat) (item : QItem)
    (visited' : List (String × Option String)) :
    ∀ it ∈ newItemsFor w domain maxDepth item visited', ∃ l, it.url = stripFragment l := by
  intro it hit
  rcases hf : w.fetch item.url with _ | hrefs
  · rw [newItemsFor_none hf] at hit; simp at hit
  · rw [newItemsFor_some hf] at hit
    by_cases hd : item.depth < maxDepth
    · rw [if_pos hd] at hit
      unfold extractLinks at hit
      rw [List.mem_filterMap] at hit
      obtain ⟨link, _, hsome⟩ := hit
      rcases hh : w.hostname link with _ | h
      · rw [hh] at hsome; simp at hsome
      · rw [hh] at hsome
        rw [show (match some h with
              | none => none
              | some h =>
                if h = domain ∧ visitedHas visited' link = false then
                  let cleanLink := stripFragment link
                  if visitedHas visited' cleanLink = false then
                    some (⟨cleanLink, item.depth + 1, some item.url⟩ : QItem)
                  else none
                else none)
            = (if h = domain ∧ visitedHas visited' link = false then
                if visitedHas visited' (stripFragment link) = false then
                  some (⟨stripFragment link, item.depth + 1, some item.url⟩ : QItem)
                else none
              else none) from rfl] at hsome
        by_cases hc : h = domain ∧ visitedHas visited' link = false
        · rw [if_pos hc] at hsome
          by_cases hc2 : visitedHas visited' (stripFragment link) = false
          · simp only [if_pos hc2, Option.some.injEq] at hsome
            exact ⟨link, by rw [← hsome]⟩
          · rw [if_neg hc2] at hsome; simp at hsome
        · rw [if_neg hc] at hsome; simp at hsome
    · rw [if_neg hd] at hit; simp at hit

/-- An invariant preserved by fragment stripping holds for every visited
entry, provided it holds for the initial visited map and queue. -/
lemma crawlLoop_pred (w : Web) (domain : String) (maxDepth maxPages : Nat)
    (Q : String → Prop) (hQ : ∀ s, Q (stripFragment s))
    (visited : List (String × Option String)) (queue : List QItem)
    (hvis : ∀ e ∈ visited, Q e.1) (hq : ∀ it ∈ queue, Q it.url) :
    ∀ e ∈ crawlLoop w domain maxDepth maxPages visited queue, Q e.1 := by
  induction visited, queue using crawlLoop.induct w domain maxDepth maxPages with
  | case1 v => rw [crawlLoop_nil]; exact hvis
  | case2 v item rest h1 h2 ih =>
    rw [crawlLoop_skip h1 h2]
    exact ih hvis (fun it hit => hq it (List.mem_cons_of_mem _ hit))
  | case3 v item rest h1 h2 h3 ih =>
    rw [crawlLoop_deep h1 (by simpa using h2) h3]
    exact ih hvis (fun it hit => hq it (List.mem_cons_of_mem _ hit))
  | case4 v item rest h1 h2 h3 visited' ih =>
    rw [crawlLoop_insert h1 (by simpa using h2) h3]
    refine ih ?_ ?_
    · intro e he
      rcases List.mem_append.mp he with he | he
      · exact hvis e he
      · have : e = (item.url, item.referrer) := by simpa using he
        rw [this]
        exact hq item (List.mem_cons_self _ _)
    · intro it hit
      rcases List.mem_append.mp hit with hit | hit
      · exact hq it (List.mem_cons_of_mem _ hit)
      · obtain ⟨l, hl⟩ := newItemsFor_url w domain maxDepth item _ it hit
        rw [hl]; exact hQ l
  | case5 v item rest h1 => rw [crawlLoop_stop h1]; exact hvis

/-- `crawlSite` output-size bound. -/
lemma crawlSite_length_le {w : Web} {s : String} {maxDepth maxPages : Nat}
    {out : List (String × Option String)}
    (h : crawlSite w s maxDepth maxPages = some out) : out.length ≤ maxPages := by
  unfold crawlSite at h
  rcases hh : w.hostname s with _ | domain <;> rw [hh] at h
  · cases h
  · have := crawlLoop_length_le w domain maxDepth maxPages [] [⟨s, 0, none⟩]
    simp only [Option.some.injEq] at h
    rw [h] at this
    simpa using this

/-- `crawlSite` never repeats an exact URL. -/
lemma crawlSite_nodup {w : Web} {s : String} {maxDepth maxPages : Nat}
    {out : List (String × Option String)}
    (h : crawlSite w s maxDepth maxPages = some out) : (out.map Prod.fst).Nodup := by
  unfold crawlSite at h
  rcases hh : w.hostname s with _ | domain <;> rw [hh] at h
  · cases h
  · simp only [Option.some.injEq] at h
    rw [← h]
    exact crawlLoop_nodup w domain maxDepth maxPages [] [⟨s, 0, none⟩] (by simp)

/-- Every `crawlSite` output entry is either the seed (stored verbatim) or a
fragment-stripped discovered link. -/
lemma crawlSite_clean {w : Web} {s : String} {maxDepth maxPages : Nat}
    {out : List (String × Option String)}
    (h : crawlSite w s maxDepth maxPages = some out) :
    ∀ e ∈ out, e.1 = s ∨ stripFragment e.1 = e.1 := by
  unfold crawlSite at h
  rcases hh : w.hostname s with _ | domain <;> rw [hh] at h
  · cases h
  · simp only [Option.some.injEq] at h
    rw [← h]
    refine crawlLoop_pred w domain maxDepth maxPages
      (fun u => u = s ∨ stripFragment u = u)
      (fun l => Or.inr (stripFragment_idem l)) _ _ (by simp) ?_
    intro it hit
    have : it = ⟨s, 0, none⟩ := by simpa using hit
    rw [this]
    exact Or.inl rfl

/-- When at least one page is allowed, the crawl starts by recording the
seed with a null referrer, whatever the link graph does. -/
lemma crawlSite_head {w : Web} {s : String} {maxDepth maxPages : Nat}
    {out : List (String × Option String)} (hmp : 1 ≤ maxPages)
    (h : crawlSite w s maxDepth maxPages = some out) :
    out.head? = some (s, none) ∧ 1 ≤ out.length := by
  unfold crawlSite at h
  rcases hh : w.hostname s with _ | domain <;> rw [hh] at h
  · cases h
  · simp only [Option.some.injEq] at h
    have hstep : crawlLoop w domain maxDepth maxPages [] [⟨s, 0, none⟩]
        = crawlLoop w domain maxDepth maxPages [(s, none)]
            ([] ++ newItemsFor w domain maxDepth ⟨s, 0, none⟩ [(s, none)]) := by
      exact crawlLoop_insert (by simpa using hmp) (by rfl) (by simp)
    have hpre : [(s, none)] <+: out := by
      rw [← h, hstep]
      exact crawlLoop_prefix w domain maxDepth maxPages [(s, none)] _
    obtain ⟨t, ht⟩ := hpre
    constructor
    · rw [← ht]; rfl
    · rw [← ht]; simp

/-!
## Crawler claims

Concrete link graphs used as counterexamples and witnesses.
-/

/-- A site whose start page `http://a/` links to one further same-host page. -/
def WebTwoPages : Web :=
  { hostname := fun _ => some "a"
    fetch := fun u => if u = "http://a/" then some ["http://a/b"] else some [] }

/-- A site whose seed carries a fragment and links to the fragment-free
spelling of the same document. -/
def WebFragment : Web :=
  { hostname := fun _ => some "a"
    fetch := fun u => if u = "http://a/p#f" then some ["http://a/p"] else some [] }

/-- A site on which every navigation fails (every `page.goto` throws). -/
def WebAllFail : Web :=
  { hostname := fun _ => some "a"
    fetch := fun _ => none }

/-- `pageLimit || 20` as computed by the `/api/scan` handler in `server.ts`
(`0` is falsy in JavaScript, so it also falls back to 20). -/
def submittedPageLimit (pageLimit : Option Nat) : Nat :=
  match pageLimit with
  | none => 20
  | some l => if l = 0 then 20 else l

/-- The crawl performed by `runScan` for a submitted job.  `server.ts` passes
the stored page limit as a sixth argument, but `runScan`'s parameter list in
`scanner.ts` has only five parameters, so the limit never reaches the crawl:
`runScan` calls `crawlSite(startUrl)` with the default `maxPages = 20`. -/
def runScanCrawl (w : Web) (startUrl : String) (_pageLimit : Nat) :
    Option (List (String × Option String)) :=
  crawlSite w startUrl

/-- **C1 (code bug).**  A job submitted with page limit 1 against a two-page
site still crawls 2 pages: the submitted limit is dropped on the way into
`runScan`, which always crawls with the default bound of 20.  Had the limit
been passed to `crawlSite`, the crawler itself would have honoured it (last
conjunct). -/
theorem runScan_drops_submitted_page_limit :
    runScanCrawl WebTwoPages "http://a/" (submittedPageLimit (some 1))
        = some [("http://a/", none), ("http://a/b", some "http://a/")]
      ∧ submittedPageLimit (some 1) = 1
      ∧ 1 < [("http://a/", none), ("http://a/b", some "http://a/")].length
      ∧ crawlSite WebTwoPages "http://a/" 3 1 = some [("http://a/", none)] := by
  refine ⟨?_, rfl, by decide, ?_⟩
  · simp +decide [runScanCrawl, crawlSite, crawlLoop, newItemsFor, WebTwoPages,
      extractLinks, stripFragment, visitedHas, jsStartsWith,
      List.filter_cons, List.filter_nil, List.filterMap_cons, List.filterMap_nil]
  · simp +decide [crawlSite, crawlLoop, newItemsFor, WebTwoPages,
      extractLinks, stripFragment, visitedHas, jsStartsWith,
      List.filter_cons, List.filter_nil, List.filterMap_cons, List.filterMap_nil]

/-- **C6 (counterexample).**  The crawler can output two entries whose
fragment-stripped URLs coincide: the dequeued URL is tested against the
visited set verbatim, so a seed carrying a fragment coexists with the
fragment-free spelling discovered as a link. -/
theorem crawl_duplicate_canonical_url :
    crawlSite WebFragment "http://a/p#f" 3 20
        = some [("http://a/p#f", none), ("http://a/p", some "http://a/p#f")]
      ∧ stripFragment "http://a/p#f" = stripFragment "http://a/p" := by
  constructor
  · simp +decide [crawlSite, crawlLoop, newItemsFor, WebFragment,
      extractLinks, stripFragment, visitedHas, jsStartsWith,
      List.filter_cons, List.filter_nil, List.filterMap_cons, List.filterMap_nil]
  · decide

/-- **C6 (amended).**  The crawler never repeats an exact URL string, and
every output entry other than the seed is fragment-free, so any two distinct
non-seed entries also differ in canonical (fragment-stripped) form; only the
seed, which is recorded verbatim, can canonically collide with a discovered
link. -/
theorem crawlSite_no_exact_duplicates (w : Web) (s : String) (maxDepth maxPages : Nat)
    (out : List (String × Option String))
    (h : crawlSite w s maxDepth maxPages = some out) :
    (out.map Prod.fst).Nodup
      ∧ (∀ e ∈ out, e.1 = s ∨ stripFragment e.1 = e.1)
      ∧ (∀ e₁ ∈ out, ∀ e₂ ∈ out, e₁.1 ≠ s → e₂.1 ≠ s →
          stripFragment e₁.1 = stripFragment e₂.1 → e₁.1 = e₂.1) := by
  refine ⟨crawlSite_nodup h, crawlSite_clean h, ?_⟩
  intro e₁ he₁ e₂ he₂ hn₁ hn₂ hcanon
  have hc₁ : stripFragment e₁.1 = e₁.1 := (crawlSite_clean h e₁ he₁).resolve_left hn₁
  have hc₂ : stripFragment e₂.1 = e₂.1 := (crawlSite_clean h e₂ he₂).resolve_left hn₂
  rw [← hc₁, ← hc₂, hcanon]

/-- Witness for the amended C6 statement on a concrete crawl. -/
theorem crawlSite_no_exact_duplicates_witness :
    crawlSite WebFragment "http://a/p#f" 3 20
        = some [("http://a/p#f", none), ("http://a/p", some "http://a/p#f")]
      ∧ (([("http://a/p#f", none), ("http://a/p", some "http://a/p#f")].map
            Prod.fst).Nodup
          ∧ (∀ e ∈ [("http://a/p#f", none), ("http://a/p", some "http://a/p#f")],
              e.1 = "http://a/p#f" ∨ stripFragment e.1 = e.1)
          ∧ (∀ e₁ ∈ [("http://a/p#f", none), ("http://a/p", some "http://a/p#f")],
              ∀ e₂ ∈ [("http://a/p#f", none), ("http://a/p", some "http://a/p#f")],
              e₁.1 ≠ "http://a/p#f" → e₂.1 ≠ "http://a/p#f" →
              stripFragment e₁.1 = stripFragment e₂.1 → e₁.1 = e₂.1)) := by
  have h : crawlSite WebFragment "http://a/p#f" 3 20
      = some [("http://a/p#f", none), ("http://a/p", some "http://a/p#f")] := by
    simp +decide [crawlSite, crawlLoop, newItemsFor, WebFragment,
      extractLinks, stripFragment, visitedHas, jsStartsWith,
      List.filter_cons, List.filter_nil, List.filterMap_cons, List.filterMap_nil]
  exact ⟨h, crawlSite_no_exact_duplicates WebFragment "http://a/p#f" 3 20 _ h⟩

/-- **C10.**  Whenever the crawl returns (with the page budget `runScan`
uses, or any positive one), its output starts with the seed URL paired with
a null referrer — even if every navigation fails — so the page auditor's
`pages.length` is at least 1 and its progress quotient never divides by
zero. -/
theorem crawlSite_output_starts_with_seed (w : Web) (s : String)
    (maxDepth maxPages : Nat) (out : List (String × Option String))
    (hmp : 1 ≤ maxPages) (h : crawlSite w s maxDepth maxPages = some out) :
    out ≠ [] ∧ out.head? = some (s, none) ∧ 1 ≤ out.length := by
  obtain ⟨hhead, hlen⟩ := crawlSite_head hmp h
  refine ⟨?_, hhead, hlen⟩
  intro hnil
  rw [hnil] at hhead
  cases hhead

/-- Witness for C10: a crawl in which every navigation fails still returns
the seed as its sole entry. -/
theorem crawlSite_output_starts_with_seed_witness :
    (1 ≤ 20 ∧ crawlSite WebAllFail "http://a/" 3 20 = some [("http://a/", none)])
      ∧ ([(("http://a/" : String), (none : Option String))] ≠ []
          ∧ [(("http://a/" : String), (none : Option String))].head? = some ("http://a/", none)
          ∧ 1 ≤ [(("http://a/" : String), (none : Option String))].length) := by
  have h : crawlSite WebAllFail "http://a/" 3 20 = some [("http://a/", none)] := by
    simp +decide [crawlSite, crawlLoop, newItemsFor, WebAllFail,
      extractLinks, stripFragment, visitedHas, jsStartsWith]
  exact ⟨⟨by decide, h⟩,
    crawlSite_output_starts_with_seed WebAllFail "http://a/" 3 20 _ (by decide) h⟩

/-!
## Page auditor (`scanner.ts`)

`runScan` audits each crawled page in a fresh browser page.  The browser is
abstracted into a `PageEnv` per URL: the events delivered to the listeners
attached before navigation, the navigation outcome (`Except` error message
or the in-page evaluation result), and the scroll/client widths observed at
each configured viewport.  In the embedding the listener-collected issues
of a page are listed before the evaluation-phase issues; all of them carry
the page's URL, which is the only ordering fact the claims rely on. -/

/-- An event delivered to one of the `page.on` listeners. -/
inductive BrowserEvent where
  | console (msgType : String) (text : String)
  | pageError (message : String)
  | response (url : String) (status : Nat)
  | requestFailed (url : String) (errorText : Option String)

/-- `IGNORED_DOMAINS` of the `requestfailed` listener. -/
def IGNORED_DOMAINS : List String :=
  ["google-analytics.com", "googletagmanager.com", "facebook.net",
   "connect.facebook.net", "doubleclick.net", "googleadservices.com",
   "hotjar.com", "segment.io", "linkedin.com", "twitter.com", "t.co",
   "pinterest.com"]

/-- JavaScript `s.includes(sub)`, on the underlying character lists. -/
def includesStr (s sub : String) : Bool :=
  decide (sub.data <:+: s.data)

/-- Description of a main-document 404, including the referrer if known. -/
def pageNotFoundDesc (referrer : Option String) : String :=
  match referrer with
  | some r => "The page returned a 404 status. Found on: " ++ r
  | none => "The page returned a 404 status."

/-- The issues pushed by the listener that receives one event.  Each listener
body is a single `if`/`else if` chain, so each event yields at most one
issue; in particular a response keeps the first matching branch only. -/
def handleEvent (url : String) (referrer : Option String) : BrowserEvent → List Issue
  | .console t text =>
    if t = "error" then
      [⟨.errorsReliability, .major, "Console Error", text, url⟩]
    else if t = "warning" then
      [⟨.bestPractices, .suggestion, "Console Warning", text, url⟩]
    else []
  | .pageError m =>
    [⟨.errorsReliability, .critical, "Uncaught Exception", m, url⟩]
  | .response rurl status =>
    if 400 ≤ status then
      if rurl = url ∧ status = 404 then
        [⟨.errorsReliability, .critical, "Page Not Found", pageNotFoundDesc referrer, url⟩]
      else if 500 ≤ status then
        [⟨.errorsReliability, .major, "Server Error",
          rurl ++ " returned status " ++ toString status, url⟩]
      else if status = 404 then
        [⟨.errorsReliability, .minor, "Broken Resource",
          rurl ++ " returned 404 Not Found on " ++ url, url⟩]
      else []
    else []
  | .requestFailed rurl errText =>
    if IGNORED_DOMAINS.any (fun d => includesStr rurl d) then []
    else if errText = some "net::ERR_ABORTED" then []
    else
      [⟨.errorsReliability, .minor, "Failed Request",
        rurl ++ " failed: " ++ errText.getD "undefined", url⟩]

/-- Result of the in-page `page.evaluate` run: captured metrics plus the
DOM-derived findings (category, severity, title, description), which the
caller tags with the page URL. -/
structure PageAnalysis where
  metrics : Metrics
  onPageIssues : List (Category × Severity × String × String)

/-- The browser's behaviour on one audited page. -/
structure PageEnv where
  events : List BrowserEvent
  nav : Except String PageAnalysis
  dims : Nat → Nat × Nat

/-- One viewport preset `{name, width, height}`. -/
structure Breakpoint where
  name : String
  width : Nat
  height : Nat

/-- Metric-threshold issues (LCP > 2500, FCP > 1800, CLS > 0.1, and the
no-LCP fallback for navigations longer than 5000ms). -/
def metricIssues (url : String) (m : Metrics) : List Issue :=
  (if 2500 < m.lcp then
    [⟨.performance, .minor, "Slow Largest Contentful Paint (LCP)",
      "LCP was " ++ toString (jsRound m.lcp) ++ "ms (Target < 2.5s).", url⟩]
   else [])
  ++ (if 1800 < m.fcp then
    [⟨.performance, .suggestion, "Slow First Contentful Paint (FCP)",
      "FCP was " ++ toString (jsRound m.fcp) ++ "ms (Target < 1.8s).", url⟩]
   else [])
  ++ (if 1 / 10 < m.cls then
    [⟨.performance, .minor, "Cumulative Layout Shift (CLS)",
      "CLS score was " ++ toString m.cls ++ " (Target < 0.1).", url⟩]
   else [])
  ++ (if m.lcp = 0 ∧ 5000 < m.duration.getD 0 then
    [⟨.performance, .suggestion, "Slow Load Time",
      "Page took " ++ toString (jsRound (m.duration.getD 0)) ++ "ms to load.", url⟩]
   else [])

/-- Per-breakpoint horizontal-overflow checks: at the k-th viewport the
browser reports `(scrollWidth, clientWidth)`; overflow records a Major
issue naming the breakpoint. -/
def overflowIssues (url : String) (bps : List Breakpoint) (dims : Nat → Nat × Nat) :
    List Issue :=
  bps.enum.filterMap (fun p =>
    if (dims p.1).2 < (dims p.1).1 then
      some ⟨.responsiveness, .major, "Horizontal Overflow",
        "Content overflows width on " ++ p.2.name ++ " ("
          ++ toString p.2.width ++ "px)", url⟩
    else none)

/-- All issues recorded while auditing one page: the listener-collected
issues, then — only when navigation succeeds — the evaluated on-page
issues, the metric-threshold issues and the viewport checks; on navigation
failure instead a single Critical "Scan Failed" issue is appended and all
remaining checks are skipped. -/
def auditPage (bps : List Breakpoint) (url : String) (referrer : Option String)
    (env : PageEnv) : List Issue :=
  let listenerIssues := (env.events.map (handleEvent url referrer)).flatten
  match env.nav with
  | .error msg =>
    listenerIssues
      ++ [⟨.errorsReliability, .critical, "Scan Failed",
            "Could not load page for scanning: " ++ msg, url⟩]
  | .ok a =>
    listenerIssues
      ++ a.onPageIssues.map (fun q => ⟨q.1, q.2.1, q.2.2.1, q.2.2.2, url⟩)
      ++ metricIssues url a.metrics
      ++ overflowIssues url bps env.dims

/-- The progress percentage emitted before auditing the page at index
`done`: `20 + Math.floor((pagesProcessed / pages.length) * 70)`, in exact
integer arithmetic. -/
def pageProgress (total done : Nat) : Nat :=
  20 + 70 * done / total

/-- The `for (const pageObj of pages)` loop of `runScan`: threads the shared
`scanIssues` accumulator, emits one progress value and one `PageReport` per
page (the report's issue list is `scanIssues.filter(i => i.affectedUrl ===
url)` at the moment the page finishes). -/
def scanPages (bps : List Breakpoint) (env : String → PageEnv) (total : Nat) :
    List (String × Option String) → List Issue → Nat →
    List Issue × List PageReport × List Nat
  | [], issues, _ => (issues, [], [])
  | (url, referrer) :: rest, issues, done =>
    let issues' := issues ++ auditPage bps url referrer (env url)
    let pageIssues := issues'.filter (fun i => i.affectedUrl == url)
    let psr := calculateScore pageIssues
    let rep : PageReport :=
      { url := url
        score := psr.overallScore
        metrics := match (env url).nav with | .ok a => some a.metrics | .error _ => none
        categoryScores := psr.categories
        issues := pageIssues }
    let next := scanPages bps env total rest issues' (done + 1)
    (next.1, rep :: next.2.1, pageProgress total done :: next.2.2)

/-- Everything `runScan` produces for one job: the accumulated issue list,
the per-page reports, the final `calculateScore` report, and the sequence
of progress percentages (5/10/20 milestones, one value per page, then 100
on completion). -/
structure ScanRun where
  issues : List Issue
  pageReports : List PageReport
  report : ScoreReport
  progress : List Nat

/-- `runScan` after the crawl returned `pages`. -/
def runScanModel (pages : List (String × Option String)) (env : String → PageEnv)
    (bps : List Breakpoint) : ScanRun :=
  let r := scanPages bps env pages.length pages [] 0
  { issues := r.1
    pageReports := r.2.1
    report := calculateScore r.1 r.2.1
    progress := 5 :: 10 :: 20 :: (r.2.2 ++ [100]) }

/-- The `PageReport` that `runScan` emits for page `p` when no other page
shares its URL: its issue list is exactly the block of issues this page's
audit produced. -/
def reportFor (bps : List Breakpoint) (env : String → PageEnv)
    (p : String × Option String) : PageReport :=
  let block := auditPage bps p.1 p.2 (env p.1)
  let psr := calculateScore block
  { url := p.1
    score := psr.overallScore
    metrics := match (env p.1).nav with | .ok a => some a.metrics | .error _ => none
    categoryScores := psr.categories
    issues := block }

/-- Concatenation of every page's audit block, in audit order. -/
def allBlocks (bps : List Breakpoint) (env : String → PageEnv)
    (pages : List (String × Option String)) : List Issue :=
  (pages.map (fun p => auditPage bps p.1 p.2 (env p.1))).flatten

lemma mem_if_singleton {c : Prop} [Decidable c] {x i : Issue}
    (h : i ∈ (if c then [x] else [])) : i = x := by
  split at h
  · simpa using h
  · simp at h

/-- Every issue a listener pushes is tagged with the audited page's URL. -/
lemma handleEvent_affectedUrl (u : String) (ref : Option String) (e : BrowserEvent) :
    ∀ i ∈ handleEvent u ref e, i.affectedUrl = u := by
  intro i hi
  cases e with
  | console t text =>
    simp only [handleEvent] at hi
    split_ifs at hi <;> simp_all
  | pageError m =>
    simp only [handleEvent] at hi
    simp_all
  | response rurl status =>
    simp only [handleEvent] at hi
    split_ifs at hi <;> simp_all
  | requestFailed rurl errText =>
    simp only [handleEvent] at hi
    split_ifs at hi <;> simp_all

/-- No listener ever emits an issue titled "Scan Failed". -/
lemma handleEvent_title_ne (u : String) (ref : Option String) (e : BrowserEvent) :
    ∀ i ∈ handleEvent u ref e, i.title ≠ "Scan Failed" := by
  intro i hi
  cases e with
  | console t text =>
    simp only [handleEvent] at hi
    split_ifs at hi <;> simp_all
  | pageError m =>
    simp only [handleEvent] at hi
    simp_all
  | response rurl status =>
    simp only [handleEvent] at hi
    split_ifs at hi <;> simp_all
  | requestFailed rurl errText =>
    simp only [handleEvent] at hi
    split_ifs at hi <;> simp_all

lemma listenerIssues_affectedUrl (u : String) (ref : Option String)
    (events : List BrowserEvent) :
    ∀ i ∈ (events.map (handleEvent u ref)).flatten, i.affectedUrl = u := by
  intro i hi
  rw [List.mem_flatten] at hi
  obtain ⟨l, hl, hil⟩ := hi
  obtain ⟨e, _, rfl⟩ := List.mem_map.mp hl
  exact handleEvent_affectedUrl u ref e i hil

lemma listenerIssues_title_ne (u : String) (ref : Option String)
    (events : List BrowserEvent) :
    ∀ i ∈ (events.map (handleEvent u ref)).flatten, i.title ≠ "Scan Failed" := by
  intro i hi
  rw [List.mem_flatten] at hi
  obtain ⟨l, hl, hil⟩ := hi
  obtain ⟨e, _, rfl⟩ := List.mem_map.mp hl
  exact handleEvent_title_ne u ref e i hil

lemma metricIssues_affectedUrl (u : String) (m : Metrics) :
    ∀ i ∈ metricIssues u m, i.affectedUrl = u := by
  intro i hi
  unfold metricIssues at hi
  rcases List.mem_append.mp hi with hi | hi
  · rcases List.mem_append.mp hi with hi | hi
    · rcases List.mem_append.mp hi with hi | hi
      · rw [mem_if_singleton hi]
      · rw [mem_if_singleton hi]
    · rw [mem_if_singleton hi]
  · rw [mem_if_singleton hi]

lemma overflowIssues_affectedUrl (u : String) (bps : List Breakpoint)
    (dims : Nat → Nat × Nat) :
    ∀ i ∈ overflowIssues u bps dims, i.affectedUrl = u := by
  intro i hi
  unfold overflowIssues at hi
  rw [List.mem_filterMap] at hi
  obtain ⟨p, _, hp⟩ := hi
  split at hp
  · simp only [Option.some.injEq] at hp
    rw [← hp]
  · cases hp

/-- Every issue recorded while auditing a page carries that page's URL. -/
lemma auditPage_affectedUrl (bps : List Breakpoint) (u : String) (ref : Option String)
    (env : PageEnv) :
    ∀ i ∈ auditPage bps u ref env, i.affectedUrl = u := by
  intro i hi
  rcases hnav : env.nav with msg | a <;> simp only [auditPage, hnav] at hi
  · rcases List.mem_append.mp hi with hi | hi
    · exact listenerIssues_affectedUrl u ref env.events i hi
    · have : i = ⟨.errorsReliability, .critical, "Scan Failed",
          "Could not load page for scanning: " ++ msg, u⟩ := by simpa using hi
      rw [this]
  · rcases List.mem_append.mp hi with hi | hi
    · rcases List.mem_append.mp hi with hi | hi
      · rcases List.mem_append.mp hi with hi | hi
        · exact listenerIssues_affectedUrl u ref env.events i hi
        · obtain ⟨q, _, rfl⟩ := List.mem_map.mp hi
          rfl
      · exact metricIssues_affectedUrl u a.metrics i hi
    · exact overflowIssues_affectedUrl u bps env.dims i hi

/-- On navigation failure the page's audit block is the listener issues
followed by exactly the one "Scan Failed" issue. -/
lemma auditPage_nav_error (bps : List Breakpoint) (u : String) (ref : Option String)
    (env : PageEnv) (msg : String) (hnav : env.nav = .error msg) :
    auditPage bps u ref env
      = (env.events.map (handleEvent u ref)).flatten
        ++ [⟨.errorsReliability, .critical, "Scan Failed",
             "Could not load page for scanning: " ++ msg, u⟩] := by
  simp only [auditPage, hnav]

lemma scanPages_fst (bps : List Breakpoint) (env : String → PageEnv) (total : Nat) :
    ∀ (pages : List (String × Option String)) (acc : List Issue) (done : Nat),
      (scanPages bps env total pages acc done).1 = acc ++ allBlocks bps env pages := by
  intro pages
  induction pages with
  | nil => intro acc done; simp [scanPages, allBlocks]
  | cons p rest ih =>
    intro acc done
    obtain ⟨url, referrer⟩ := p
    simp only [scanPages]
    rw [ih]
    simp [allBlocks, List.append_assoc]

lemma scanPages_progress (bps : List Breakpoint) (env : String → PageEnv) (total : Nat) :
    ∀ (pages : List (String × Option String)) (acc : List Issue) (done : Nat),
      (scanPages bps env total pages acc done).2.2
        = (List.range' done pages.length).map (pageProgress total) := by
  intro pages
  induction pages with
  | nil => intro acc done; simp [scanPages]
  | cons p rest ih =>
    intro acc done
    obtain ⟨url, referrer⟩ := p
    simp only [scanPages]
    rw [ih]
    simp [List.range'_succ]

/-- Under unique page URLs (and an accumulator whose issues belong to no
remaining page), the loop emits exactly one `reportFor` per page. -/
lemma scanPages_reports (bps : List Breakpoint) (env : String → PageEnv) (total : Nat) :
    ∀ (pages : List (String × Option String)) (acc : List Issue) (done : Nat),
      (pages.map Prod.fst).Nodup →
      (∀ i ∈ acc, i.affectedUrl ∉ pages.map Prod.fst) →
      (scanPages bps env total pages acc done).2.1 = pages.map (reportFor bps env) := by
  intro pages
  induction pages with
  | nil => intro acc done _ _; simp [scanPages]
  | cons p rest ih =>
    intro acc done hnodup hacc
    obtain ⟨url, referrer⟩ := p
    have hkey : url ∉ rest.map Prod.fst := by
      have := hnodup
      simp only [List.map_cons, List.nodup_cons] at this
      exact this.1
    have hblock : ∀ i ∈ auditPage bps url referrer (env url), i.affectedUrl = url :=
      auditPage_affectedUrl bps url referrer (env url)
    have hfilter : (acc ++ auditPage bps url referrer (env url)).filter
        (fun i => i.affectedUrl == url) = auditPage bps url referrer (env url) := by
      rw [List.filter_append]
      have h1 : acc.filter (fun i => i.affectedUrl == url) = [] := by
        rw [List.filter_eq_nil_iff]
        intro i hi
        have : i.affectedUrl ∉ (url :: rest.map Prod.fst) := by
          simpa using hacc i hi
        simp only [List.mem_cons, not_or] at this
        simpa using this.1
      have h2 : (auditPage bps url referrer (env url)).filter
          (fun i => i.affectedUrl == url) = auditPage bps url referrer (env url) := by
        rw [List.filter_eq_self]
        intro i hi
        simpa using hblock i hi
      rw [h1, h2, List.nil_append]
    simp only [scanPages]
    rw [hfilter]
    have hrec : (scanPages bps env total rest
        (acc ++ auditPage bps url referrer (env url)) (done + 1)).2.1
        = rest.map (reportFor bps env) := by
      refine ih _ _ ?_ ?_
      · have := hnodup
        simp only [List.map_cons, List.nodup_cons] at this
        exact this.2
      · intro i hi
        rcases List.mem_append.mp hi with hi | hi
        · intro hmem
          exact hacc i hi (by simp [hmem])
        · rw [hblock i hi]
          exact hkey
    rw [hrec]
    rfl

lemma scanPages_reports_length (bps : List Breakpoint) (env : String → PageEnv)
    (total : Nat) :
    ∀ (pages : List (String × Option String)) (acc : List Issue) (done : Nat),
      (scanPages bps env total pages acc done).2.1.length = pages.length := by
  intro pages
  induction pages with
  | nil => intro acc done; simp [scanPages]
  | cons p rest ih =>
    intro acc done
    obtain ⟨url, referrer⟩ := p
    simp only [scanPages, List.length_cons]
    rw [ih]

lemma allBlocks_urls (bps : List Breakpoint) (env : String → PageEnv)
    (pages : List (String × Option String)) :
    ∀ i ∈ allBlocks bps env pages, i.affectedUrl ∈ pages.map Prod.fst := by
  intro i hi
  unfold allBlocks at hi
  rw [List.mem_flatten] at hi
  obtain ⟨l, hl, hil⟩ := hi
  obtain ⟨p, hp, rfl⟩ := List.mem_map.mp hl
  rw [auditPage_affectedUrl bps p.1 p.2 (env p.1) i hil]
  exact List.mem_map_of_mem Prod.fst hp

/-- With unique URLs, filtering the whole job's issue list by one page's URL
recovers exactly that page's audit block. -/
lemma allBlocks_filter (bps : List Breakpoint) (env : String → PageEnv) :
    ∀ (pages : List (String × Option String)) (p : String × Option String),
      (pages.map Prod.fst).Nodup → p ∈ pages →
      (allBlocks bps env pages).filter (fun i => i.affectedUrl == p.1)
        = auditPage bps p.1 p.2 (env p.1) := by
  intro pages
  induction pages with
  | nil => intro p _ hp; cases hp
  | cons q rest ih =>
    intro p hnodup hp
    have hqkey : q.1 ∉ rest.map Prod.fst := by
      have := hnodup
      simp only [List.map_cons, List.nodup_cons] at this
      exact this.1
    have hrestnodup : (rest.map Prod.fst).Nodup := by
      have := hnodup
      simp only [List.map_cons, List.nodup_cons] at this
      exact this.2
    have hcons : allBlocks bps env (q :: rest)
        = auditPage bps q.1 q.2 (env q.1) ++ allBlocks bps env rest := by
      simp [allBlocks]
    rcases List.mem_cons.mp hp with rfl | hp
    · rw [hcons, List.filter_append]
      have h1 : (auditPage bps p.1 p.2 (env p.1)).filter
          (fun i => i.affectedUrl == p.1) = auditPage bps p.1 p.2 (env p.1) := by
        rw [List.filter_eq_self]
        intro i hi
        simpa using auditPage_affectedUrl bps p.1 p.2 (env p.1) i hi
      have h2 : (allBlocks bps env rest).filter (fun i => i.affectedUrl == p.1) = [] := by
        rw [List.filter_eq_nil_iff]
        intro i hi
        have : i.affectedUrl ∈ rest.map Prod.fst := allBlocks_urls bps env rest i hi
        intro hbeq
        rw [show i.affectedUrl = p.1 by simpa using hbeq] at this
        exact hqkey this
      rw [h1, h2, List.append_nil]
    · have hpkey : p.1 ∈ rest.map Prod.fst := List.mem_map_of_mem Prod.fst hp
      have hne : q.1 ≠ p.1 := fun hh => hqkey (hh ▸ hpkey)
      rw [hcons, List.filter_append]
      have h1 : (auditPage bps q.1 q.2 (env q.1)).filter
          (fun i => i.affectedUrl == p.1) = [] := by
        rw [List.filter_eq_nil_iff]
        intro i hi
        rw [auditPage_affectedUrl bps q.1 q.2 (env q.1) i hi]
        simpa using hne
      rw [h1, List.nil_append]
      exact ih p hrestnodup hp

/-!
## Page-auditor claims
-/

/-- **C2.**  For a job whose pages come from the crawler, every emitted
`PageReport` holds exactly the job's issues whose `affectedUrl` equals the
report's URL: the stored list equals the filter of the whole job's issue
list, and each stored issue carries the report's URL. -/
theorem pageReport_issues_exact (w : Web) (s : String) (env : String → PageEnv)
    (bps : List Breakpoint) (pages : List (String × Option String))
    (h : crawlSite w s 3 20 = some pages) :
    ∀ r ∈ (runScanModel pages env bps).pageReports,
      r.issues = (runScanModel pages env bps).issues.filter
          (fun i => i.affectedUrl == r.url)
        ∧ ∀ i ∈ r.issues, i.affectedUrl = r.url := by
  have hnodup := crawlSite_nodup h
  have hreports : (runScanModel pages env bps).pageReports
      = pages.map (reportFor bps env) := by
    simp only [runScanModel]
    exact scanPages_reports bps env pages.length pages [] 0 hnodup (by simp)
  have hissues : (runScanModel pages env bps).issues = allBlocks bps env pages := by
    simp only [runScanModel]
    rw [scanPages_fst]
    rw [List.nil_append]
  intro r hr
  rw [hreports] at hr
  obtain ⟨p, hp, rfl⟩ := List.mem_map.mp hr
  constructor
  · rw [hissues]
    show auditPage bps p.1 p.2 (env p.1)
      = (allBlocks bps env pages).filter (fun i => i.affectedUrl == p.1)
    rw [allBlocks_filter bps env pages p hnodup hp]
  · intro i hi
    exact auditPage_affectedUrl bps p.1 p.2 (env p.1) i hi

/-- A one-page site whose single navigation succeeds with no links. -/
def WebSingle : Web :=
  { hostname := fun _ => some "a"
    fetch := fun _ => some [] }

/-- A browser in which every page loads cleanly and reports nothing. -/
def envOk : String → PageEnv :=
  fun _ => { events := [], nav := .ok ⟨⟨0, 0, 0, none⟩, []⟩, dims := fun _ => (0, 0) }

/-- Witness for C2 on a concrete one-page job. -/
theorem pageReport_issues_exact_witness :
    crawlSite WebSingle "http://a/" 3 20 = some [("http://a/", none)]
      ∧ ∀ r ∈ (runScanModel [("http://a/", none)] envOk []).pageReports,
          r.issues = (runScanModel [("http://a/", none)] envOk []).issues.filter
              (fun i => i.affectedUrl == r.url)
            ∧ ∀ i ∈ r.issues, i.affectedUrl = r.url := by
  have h : crawlSite WebSingle "http://a/" 3 20 = some [("http://a/", none)] := by
    simp +decide [crawlSite, crawlLoop, newItemsFor, WebSingle, extractLinks,
      stripFragment, visitedHas, jsStartsWith, List.filter_nil, List.filterMap_nil]
  exact ⟨h, pageReport_issues_exact WebSingle "http://a/" envOk [] _ h⟩

/-- **C7.**  A 404 response for the audited page's own URL produces exactly
one issue — Critical "Page Not Found", whose description carries the
referrer when one is known — and neither generic sub-resource branch
("Server Error", "Broken Resource") fires for that same response. -/
theorem mainDocument404_one_issue (url : String) (referrer : Option String) :
    handleEvent url referrer (.response url 404)
      = [⟨.errorsReliability, .critical, "Page Not Found",
          pageNotFoundDesc referrer, url⟩]
      ∧ (∀ r, referrer = some r →
          pageNotFoundDesc referrer = "The page returned a 404 status. Found on: " ++ r)
      ∧ (referrer = none →
          pageNotFoundDesc referrer = "The page returned a 404 status.") := by
  refine ⟨?_, ?_, ?_⟩
  · simp +decide [handleEvent]
  · intro r hr; rw [hr]; rfl
  · intro hr; rw [hr]; rfl

/-- Witness for C7 at a concrete URL with a known referrer. -/
theorem mainDocument404_one_issue_witness :
    handleEvent "http://a/x" (some "http://a/") (.response "http://a/x" 404)
        = [⟨.errorsReliability, .critical, "Page Not Found",
            pageNotFoundDesc (some "http://a/"), "http://a/x"⟩]
      ∧ pageNotFoundDesc (some "http://a/")
          = "The page returned a 404 status. Found on: " ++ "http://a/" := by
  have h := mainDocument404_one_issue "http://a/x" (some "http://a/")
  exact ⟨h.1, h.2.1 "http://a/" rfl⟩

/-- **C8.**  When a page's navigation fails, its audit block is the
listener-collected issues plus exactly one Errors&Reliability/Critical
"Scan Failed" issue (the in-page evaluation, metric thresholds and viewport
checks are all skipped), a `PageReport` is still emitted for that page, and
one report per page is produced, so the job continues. -/
theorem navFailure_one_scanFailed (bps : List Breakpoint) (env : String → PageEnv)
    (pages : List (String × Option String)) (k : Nat) (u : String)
    (ref : Option String) (msg : String)
    (hnodup : (pages.map Prod.fst).Nodup)
    (hk : pages[k]? = some (u, ref))
    (hnav : (env u).nav = .error msg) :
    (runScanModel pages env bps).pageReports.length = pages.length
      ∧ (runScanModel pages env bps).pageReports[k]? = some (reportFor bps env (u, ref))
      ∧ (reportFor bps env (u, ref)).issues
          = ((env u).events.map (handleEvent u ref)).flatten
            ++ [⟨.errorsReliability, .critical, "Scan Failed",
                  "Could not load page for scanning: " ++ msg, u⟩]
      ∧ ((reportFor bps env (u, ref)).issues.filter
            (fun i => i.title == "Scan Failed")).length = 1 := by
  have hreports : (runScanModel pages env bps).pageReports
      = pages.map (reportFor bps env) := by
    simp only [runScanModel]
    exact scanPages_reports bps env pages.length pages [] 0 hnodup (by simp)
  have hissues : (reportFor bps env (u, ref)).issues
      = ((env u).events.map (handleEvent u ref)).flatten
        ++ [⟨.errorsReliability, .critical, "Scan Failed",
              "Could not load page for scanning: " ++ msg, u⟩] := by
    show auditPage bps u ref (env u) = _
    exact auditPage_nav_error bps u ref (env u) msg hnav
  refine ⟨?_, ?_, hissues, ?_⟩
  · rw [hreports, List.length_map]
  · rw [hreports, List.getElem?_map, hk]
    rfl
  · rw [hissues, List.filter_append]
    have h1 : ((env u).events.map (handleEvent u ref)).flatten.filter
        (fun i => i.title == "Scan Failed") = [] := by
      rw [List.filter_eq_nil_iff]
      intro i hi hbeq
      exact listenerIssues_title_ne u ref (env u).events i hi (by simpa using hbeq)
    rw [h1]
    simp

/-- A browser in which every navigation fails with a timeout. -/
def envFail : String → PageEnv :=
  fun _ => { events := [], nav := .error "timeout", dims := fun _ => (0, 0) }

/-- Witness for C8 on a concrete one-page job whose navigation fails. -/
theorem navFailure_one_scanFailed_witness :
    (runScanModel [("http://u/", none)] envFail []).pageReports.length = 1
      ∧ (runScanModel [("http://u/", none)] envFail []).pageReports[0]?
          = some (reportFor [] envFail ("http://u/", none))
      ∧ (reportFor [] envFail ("http://u/", none)).issues
          = [⟨.errorsReliability, .critical, "Scan Failed",
               "Could not load page for scanning: " ++ "timeout", "http://u/"⟩]
      ∧ ((reportFor [] envFail ("http://u/", none)).issues.filter
            (fun i => i.title == "Scan Failed")).length = 1 := by
  have h := navFailure_one_scanFailed [] envFail [("http://u/", none)] 0
    "http://u/" none "timeout" (by simp) rfl rfl
  refine ⟨h.1, h.2.1, ?_, h.2.2.2⟩
  rw [h.2.2.1]
  rfl

lemma pageProgress_mono (total : Nat) :
    ∀ a b, a ≤ b → pageProgress total a ≤ pageProgress total b := by
  intro a b h
  unfold pageProgress
  exact Nat.add_le_add_left (Nat.div_le_div_right (Nat.mul_le_mul_left _ h)) _

lemma pageProgress_le_90 {total k : Nat} (h : k < total) :
    pageProgress total k ≤ 90 := by
  unfold pageProgress
  have hpos : 0 < total := lt_of_le_of_lt (Nat.zero_le k) h
  have h1 : 70 * k ≤ 70 * total := Nat.mul_le_mul_left _ (le_of_lt h)
  have h2 : 70 * k / total ≤ 70 * total / total := Nat.div_le_div_right h1
  rw [Nat.mul_div_cancel _ hpos] at h2
  omega

lemma chain_le_map_range (f : Nat → Nat) (hf : ∀ a b, a ≤ b → f a ≤ f b) :
    ∀ (n a : Nat), List.Chain' (· ≤ ·) ((List.range' a n).map f) := by
  intro n
  induction n with
  | zero => intro a; simp
  | succ n ih =>
    intro a
    rw [List.range'_succ, List.map_cons, List.chain'_cons']
    refine ⟨?_, ih (a + 1)⟩
    intro y hy
    cases n with
    | zero => simp at hy
    | succ m =>
      rw [List.range'_succ, List.map_cons] at hy
      simp only [List.head?_cons, Option.mem_def, Option.some.injEq] at hy
      rw [← hy]
      exact hf a (a + 1) (Nat.le_succ a)

/-- **C9.**  The progress percentages a job emits are the 5/10/20
milestones, then `20 + floor(70 * done / total)` before each page — a value
in `[20, 90]` — and finally 100; the whole sequence is monotonically
non-decreasing. -/
theorem runScan_progress_monotone (pages : List (String × Option String))
    (env : String → PageEnv) (bps : List Breakpoint) :
    (runScanModel pages env bps).progress
        = 5 :: 10 :: 20 ::
            ((List.range pages.length).map (pageProgress pages.length) ++ [100])
      ∧ List.Chain' (· ≤ ·) ((runScanModel pages env bps).progress)
      ∧ ∀ k, k < pages.length →
          20 ≤ pageProgress pages.length k ∧ pageProgress pages.length k ≤ 90 := by
  have hshape : (runScanModel pages env bps).progress
      = 5 :: 10 :: 20 ::
          ((List.range pages.length).map (pageProgress pages.length) ++ [100]) := by
    simp only [runScanModel]
    rw [scanPages_progress, List.range_eq_range']
  refine ⟨hshape, ?_, ?_⟩
  · rw [hshape, List.range_eq_range']
    have hM : List.Chain' (· ≤ ·)
        ((List.range' 0 pages.length).map (pageProgress pages.length)) :=
      chain_le_map_range _ (pageProgress_mono _) _ 0
    have hMle : ∀ x ∈ (List.range' 0 pages.length).map (pageProgress pages.length),
        x ≤ 100 := by
      intro x hx
      obtain ⟨k, hk, rfl⟩ := List.mem_map.mp hx
      have hklt : k < pages.length := by
        have := List.mem_range'_1.mp hk
        omega
      exact (pageProgress_le_90 hklt).trans (by norm_num)
    have happ : List.Chain' (· ≤ ·)
        ((List.range' 0 pages.length).map (pageProgress pages.length) ++ [100]) := by
      rw [List.chain'_append]
      refine ⟨hM, List.chain'_singleton _, ?_⟩
      intro x hx y hy
      have hxle : x ≤ 100 := hMle x (List.mem_of_mem_getLast? hx)
      have hy100 : 100 = y := by simpa using hy
      omega
    refine List.chain'_cons'.mpr ⟨by intro y hy; simp at hy; omega, ?_⟩
    refine List.chain'_cons'.mpr ⟨by intro y hy; simp at hy; omega, ?_⟩
    refine List.chain'_cons'.mpr ⟨?_, happ⟩
    intro y hy
    cases hn : pages.length with
    | zero =>
      rw [hn] at hy
      simp at hy
      omega
    | succ m =>
      rw [hn, List.range'_succ, List.map_cons] at hy
      simp only [List.cons_append, List.head?_cons, Option.mem_def,
        Option.some.injEq] at hy
      rw [← hy]
      unfold pageProgress
      simp
  · intro k hk
    refine ⟨Nat.le_add_right _ _, pageProgress_le_90 hk⟩

/-- Witness for C9 on a concrete one-page job. -/
theorem runScan_progress_monotone_witness :
    (0 < 1 ∧ 20 ≤ pageProgress 1 0 ∧ pageProgress 1 0 ≤ 90)
      ∧ List.Chain' (· ≤ ·) ((runScanModel [("http://u/", none)] envFail []).progress) := by
  have h := runScan_progress_monotone [("http://u/", none)] envFail []
  exact ⟨⟨by decide, (h.2.2 0 (by decide)).1, (h.2.2 0 (by decide)).2⟩, h.2.1⟩

end WebsiteCheck
